import Mathlib

/-!
Shallow embedding of the spore-box frontend client
(src/frontend/src/Chat.tsx, src/frontend/src/api.ts,
src/frontend/src/components/MessageInput.tsx, src/frontend/src/types.ts),
together with theorems about the polling loop, the adaptive backoff, the
message-merge logic and the request construction of the API layer.
-/

namespace SporeBox

/-- `type` field of a `Message` (src/frontend/src/types.ts): one of
`text`, `image`, `file`. -/
inductive MessageType
  | text
  | image
  | file
deriving DecidableEq

/-- `Message` record of src/frontend/src/types.ts. -/
structure Message where
  id : String
  content : String
  sender : String
  timestamp : String
  type : MessageType
  filename : Option String := none
  fileSize : Option Nat := none
  mimeType : Option String := none
deriving DecidableEq

/-- `SendMessageRequest` of src/frontend/src/types.ts, as constructed at the
call site in `handleSendMessage` (fields `content`, `sender`, `type`). -/
structure SendMessageRequest where
  content : String
  sender : String
  type : MessageType
deriving DecidableEq

/-- Opaque model of a browser `File` handle. -/
structure File where
  handle : Nat
deriving DecidableEq

/-- A value stored in a multipart `FormData` object: either an appended file
or an appended string. -/
inductive FormValue
  | fileVal (f : File)
  | strVal (s : String)
deriving DecidableEq

/-- The HTTP requests the client can emit when sending a message:
`POST /api/messages` with a JSON body, or `POST /api/upload` with a
multipart form (src/frontend/src/api.ts). -/
inductive ApiRequest
  | postMessages (body : SendMessageRequest)
  | postUpload (form : List (String × FormValue))
deriving DecidableEq

/-- `api.sendMessage` (src/frontend/src/api.ts): posts the JSON body to
`/api/messages`. -/
def sendMessageRequest (data : SendMessageRequest) : ApiRequest :=
  ApiRequest.postMessages data

/-- `api.uploadFile` (src/frontend/src/api.ts): builds a `FormData` with
exactly the appends `file` and `sender`, in that order, and posts it to
`/api/upload`. -/
def uploadFileRequest (f : File) (sender : String) : ApiRequest :=
  ApiRequest.postUpload [("file", FormValue.fileVal f), ("sender", FormValue.strVal sender)]

/-- The `sender` carried by an emitted request: the `sender` field of the
JSON body, or the `sender` entry of the multipart form. -/
def requestSender : ApiRequest → Option String
  | ApiRequest.postMessages b => some b.sender
  | ApiRequest.postUpload form =>
    match form.lookup "sender" with
    | some (FormValue.strVal s) => some s
    | _ => none

/-- `handleSendMessage` of src/frontend/src/Chat.tsx, lines 163-188, reduced
to the request it emits: `type === 'text'` posts `{content, sender, type}`;
otherwise, if a file is present, it uploads it; otherwise it returns without
sending anything. -/
def handleSendMessage (deviceName content : String) (ty : MessageType)
    (file : Option File) : Option ApiRequest :=
  match ty with
  | MessageType.text =>
      some (sendMessageRequest { content := content, sender := deviceName, type := MessageType.text })
  | _ =>
      match file with
      | some f => some (uploadFileRequest f deviceName)
      | none => none

/-- `api.getDeviceName` (src/frontend/src/api.ts):
`new URLSearchParams(window.location.search).get("device") || "Browser"`.
The page's query parameters are modelled as an association list;
`URLSearchParams.get` returns the first binding or null, and `|| "Browser"`
replaces both null and the empty string. -/
def getDeviceName (params : List (String × String)) : String :=
  match params.lookup "device" with
  | some v => if v = "" then "Browser" else v
  | none => "Browser"

/-- The characters `encodeURIComponent` leaves unescaped: ASCII letters and
digits and `- _ . ! ~ * ' ( )`. -/
def isUnreservedURIChar (c : Char) : Bool :=
  c.isAlpha || c.isDigit || c = '-' || c = '_' || c = '.' || c = '!' ||
    c = '~' || c = '*' || c = Char.ofNat 39 || c = '(' || c = ')'

/-- Upper-case hexadecimal digit for a value below 16. -/
def hexDigitChar (n : Nat) : Char :=
  if n < 10 then Char.ofNat (48 + n) else Char.ofNat (55 + n)

/-- Percent-encoding of one byte, `%XY`. -/
def percentEncodeByte (b : Nat) : List Char :=
  ['%', hexDigitChar (b / 16), hexDigitChar (b % 16)]

/-- UTF-8 byte sequence of a code point. -/
def utf8EncodeChar (n : Nat) : List Nat :=
  if n < 128 then [n]
  else if n < 2048 then [192 + n / 64, 128 + n % 64]
  else if n < 65536 then [224 + n / 4096, 128 + n / 64 % 64, 128 + n % 64]
  else [240 + n / 262144, 128 + n / 4096 % 64, 128 + n / 64 % 64, 128 + n % 64]

/-- JavaScript `encodeURIComponent`: unreserved characters pass through,
every other character is written as the percent-encoding of its UTF-8
bytes. -/
def encodeURIComponent (s : String) : String :=
  String.mk (s.data.flatMap fun c =>
    if isUnreservedURIChar c then [c]
    else (utf8EncodeChar c.toNat).flatMap percentEncodeByte)

/-- `api.pollMessages` (src/frontend/src/api.ts, lines 47-54): the URL of
the GET request issued for cursor `since`. -/
def pollMessagesURL (since : String) : String :=
  "/api/messages/poll?since=" ++ encodeURIComponent since

/-- Split a character list at the first occurrence of `c`, returning the
part before and the part after, or `none` when `c` does not occur. -/
def splitAtFirst (c : Char) : List Char → Option (List Char × List Char)
  | [] => none
  | x :: xs =>
    if x = c then some ([], xs)
    else (splitAtFirst c xs).map fun p => (x :: p.1, p.2)

/-- Parse a URL of the shape `path?key=value` into its three components. -/
def parseQueryURL (u : String) : Option (String × String × String) :=
  match splitAtFirst '?' u.data with
  | none => none
  | some (path, rest) =>
    match splitAtFirst '=' rest with
    | none => none
    | some (key, value) => some (String.mk path, String.mk key, String.mk value)

/-- The shape of the poll response `api.pollMessages` returns:
`{messages, timestamp}`. -/
structure PollResponse where
  messages : List Message
  timestamp : String
deriving DecidableEq

/-- Outcome of one awaited `api.pollMessages` call inside `poll`
(src/frontend/src/Chat.tsx): the promise resolves with a response, or it
rejects (network or server error) and control moves to the catch block. -/
inductive PollOutcome
  | success (resp : PollResponse)
  | failure
deriving DecidableEq

/-- `POLLING_CONFIG.INITIAL_INTERVAL` (src/frontend/src/Chat.tsx, line 9). -/
def initialInterval : ℚ := 3000

/-- `POLLING_CONFIG.MAX_INTERVAL` (line 10). -/
def maxInterval : ℚ := 30000

/-- `POLLING_CONFIG.IDLE_MULTIPLIER` (line 12). -/
def idleMultiplier : ℚ := 3 / 2

/-- `POLLING_CONFIG.ERROR_MULTIPLIER` (line 13). -/
def errorMultiplier : ℚ := 2

/-- The `setMessages` updater inside `poll` (src/frontend/src/Chat.tsx,
lines 60-69): keep the previous list, append only the incoming messages
whose `id` is not among the previous ids, and return the previous list
unchanged when nothing new remains. -/
def mergeMessages (prev incoming : List Message) : List Message :=
  let newMessages := incoming.filter fun m => !((prev.map Message.id).contains m.id)
  if newMessages.length > 0 then prev ++ newMessages else prev

/-- The mutable local state of the polling effect in `Chat`
(src/frontend/src/Chat.tsx, lines 48-120): `isActive`, whether a
`setTimeout` handle is pending (`pollInterval !== null`), the number of
`poll()` invocations currently awaiting their response, the current backoff
interval, the `lastTimestamp` cursor, and the rendered message list. -/
structure ClientState where
  isActive : Bool
  timerSet : Bool
  inFlight : Nat
  currentPollInterval : ℚ
  lastTimestamp : String
  messages : List Message
deriving DecidableEq

/-- The body of `poll` after the awaited response settles
(src/frontend/src/Chat.tsx, lines 57-86): on success merge any messages,
reset the interval when messages arrived or grow it by the idle multiplier
capped at the maximum otherwise, and adopt the response timestamp as the
new cursor; on failure grow the interval by the error multiplier capped at
the maximum and leave the cursor untouched. -/
def applyOutcome (s : ClientState) : PollOutcome → ClientState
  | PollOutcome.success resp =>
    { s with
      messages :=
        if resp.messages.length > 0 then mergeMessages s.messages resp.messages
        else s.messages,
      currentPollInterval :=
        if resp.messages.length > 0 then initialInterval
        else min (s.currentPollInterval * idleMultiplier) maxInterval,
      lastTimestamp := resp.timestamp }
  | PollOutcome.failure =>
    { s with
      currentPollInterval :=
        min (s.currentPollInterval * errorMultiplier) maxInterval }

/-- Events driving the polling effect: the pending timer fires (invoking
`poll`, which returns at once when inactive), an in-flight poll settles,
and the two `visibilitychange` cases of `handleVisibilityChange`
(src/frontend/src/Chat.tsx, lines 93-107). -/
inductive Event
  | timerFire
  | pollComplete (o : PollOutcome)
  | documentHidden
  | documentVisible

/-- One transition of the polling effect. `timerFire` consumes the timer
and starts a poll only when active (the `if (!isActive) return` guard).
`pollComplete` runs the rest of the `poll` body: process the outcome, then
schedule the next timer only when still active (lines 88-90).
`documentHidden` clears `isActive` and cancels a pending timer (lines
94-99). `documentVisible` on an inactive client re-activates it, resets the
interval to the initial value and invokes `poll()` immediately (lines
100-106). -/
def step (s : ClientState) : Event → ClientState
  | Event.timerFire =>
    if s.timerSet then
      if s.isActive then { s with timerSet := false, inFlight := s.inFlight + 1 }
      else { s with timerSet := false }
    else s
  | Event.pollComplete o =>
    if s.inFlight > 0 then
      let s1 := applyOutcome s o
      if s.isActive then { s1 with inFlight := s.inFlight - 1, timerSet := true }
      else { s1 with inFlight := s.inFlight - 1 }
    else s
  | Event.documentHidden => { s with isActive := false, timerSet := false }
  | Event.documentVisible =>
    if s.isActive then s
    else
      { s with
        isActive := true,
        currentPollInterval := initialInterval,
        inFlight := s.inFlight + 1 }

/-- The state right after the effect mounts (src/frontend/src/Chat.tsx,
lines 49-52 and 111): active, interval at the initial value, cursor at the
mount-time clock reading `c`, and the first `poll()` already issued. -/
def initState (c : String) : ClientState :=
  { isActive := true
    timerSet := false
    inFlight := 1
    currentPollInterval := initialInterval
    lastTimestamp := c
    messages := [] }

/-- States the polling effect can reach from mount under any sequence of
timer firings, poll outcomes and visibility changes. -/
inductive Reachable : ClientState → Prop
  | init (c : String) : Reachable (initState c)
  | next (s : ClientState) (e : Event) : Reachable s → Reachable (step s e)

/-- JavaScript `String.prototype.trim` on the character list: drop
whitespace from both ends. -/
def trimChars (l : List Char) : List Char :=
  ((l.dropWhile Char.isWhitespace).reverse.dropWhile Char.isWhitespace).reverse

/-- `message.trim()` as used by `MessageInput.handleSubmit`. -/
def jsTrim (s : String) : String :=
  String.mk (trimChars s.data)

/-- `handleSubmit` of src/frontend/src/components/MessageInput.tsx, lines
22-37, reduced to the `onSendMessage` call it makes: only when the trimmed
message is truthy (non-empty) and the input is not disabled does it send
the trimmed content as a text message. -/
def handleSubmit (message : String) (disabled : Bool) : Option (String × MessageType) :=
  if (jsTrim message).isEmpty = false ∧ disabled = false then
    some (jsTrim message, MessageType.text)
  else none

/-- A `DataTransferItem` on the clipboard: its MIME `type` string and the
result of `getAsFile()` (null for non-file items). -/
structure ClipboardItem where
  type : String
  file : Option File
deriving DecidableEq

/-- `item.type.indexOf('image') !== -1`: the string contains `image`. -/
def typeContainsImage (s : String) : Bool :=
  decide ("image".data <:+: s.data)

/-- `handlePaste` of src/frontend/src/components/MessageInput.tsx, lines
53-72, reduced to the `onSendMessage` call it makes: scan the clipboard
items in order; at the first item whose type contains `image` and whose
`getAsFile()` yields a file, send `('', 'image', file)` and return;
items whose `getAsFile()` is null are skipped and the scan continues. -/
def handlePaste : List ClipboardItem → Option (String × MessageType × File)
  | [] => none
  | item :: rest =>
    if typeContainsImage item.type then
      match item.file with
      | some f => some ("", MessageType.image, f)
      | none => handlePaste rest
    else handlePaste rest

end SporeBox

namespace SporeBox

/-- C1: for every successful poll round-trip, with or without messages, the
`since` cursor used for the next poll equals the `timestamp` field of the
response; a failed poll leaves the cursor unchanged, so the next poll
reuses the previous cursor. -/
theorem c1_cursor_follows_response (s : ClientState) (resp : PollResponse)
    (h : s.inFlight > 0) :
    ((applyOutcome s (PollOutcome.success resp)).lastTimestamp = resp.timestamp
      ∧ (applyOutcome s PollOutcome.failure).lastTimestamp = s.lastTimestamp)
  ∧ ((step s (Event.pollComplete (PollOutcome.success resp))).lastTimestamp = resp.timestamp
      ∧ (step s (Event.pollComplete PollOutcome.failure)).lastTimestamp = s.lastTimestamp) := by
  refine ⟨⟨rfl, rfl⟩, ?_, ?_⟩ <;>
  · simp only [step, if_pos h]
    cases hb : s.isActive <;> simp [hb, applyOutcome]

/-- Witness for C1 at the mount state and a concrete response. -/
theorem c1_cursor_follows_response_witness :
    (applyOutcome (initState "t0") (PollOutcome.success ⟨[], "t1"⟩)).lastTimestamp = "t1"
  ∧ (step (initState "t0") (Event.pollComplete PollOutcome.failure)).lastTimestamp = "t0" := by
  have h := c1_cursor_follows_response (initState "t0") ⟨[], "t1"⟩ (by decide)
  exact ⟨h.1.1, h.2.2⟩

/-- C2: after a completed poll the next interval is 3000 ms when the
response contained messages, `min(previous * 1.5, 30000)` on a successful
empty response, and `min(previous * 2, 30000)` on a failed poll. -/
theorem c2_backoff_schedule (s : ClientState) (resp : PollResponse) :
    (resp.messages.length > 0 →
      (applyOutcome s (PollOutcome.success resp)).currentPollInterval = 3000)
  ∧ (resp.messages.length = 0 →
      (applyOutcome s (PollOutcome.success resp)).currentPollInterval
        = min (s.currentPollInterval * (3 / 2)) 30000)
  ∧ (applyOutcome s PollOutcome.failure).currentPollInterval
      = min (s.currentPollInterval * 2) 30000 := by
  refine ⟨fun h => ?_, fun h => ?_, ?_⟩
  · simp [applyOutcome, if_pos h, initialInterval]
  · simp [applyOutcome, h, idleMultiplier, maxInterval]
  · simp [applyOutcome, errorMultiplier, maxInterval]

/-- Witness for C2: a response with one message resets the interval, an
empty response applies the idle growth. -/
theorem c2_backoff_schedule_witness :
    (applyOutcome (initState "t0")
        (PollOutcome.success ⟨[⟨"a", "hi", "s", "t1", MessageType.text, none, none, none⟩], "t1"⟩)).currentPollInterval = 3000
  ∧ (applyOutcome (initState "t0") (PollOutcome.success ⟨[], "t1"⟩)).currentPollInterval
      = min ((initState "t0").currentPollInterval * (3 / 2)) 30000 := by
  exact ⟨(c2_backoff_schedule (initState "t0") _).1 (by decide),
    (c2_backoff_schedule (initState "t0") ⟨[], "t1"⟩).2.1 rfl⟩

/-- C5: merging a poll response appends exactly the incoming messages whose
id is absent from the previous list, keeping the previous list as an
unchanged initial segment, and every appended message has an id different
from every previously displayed one. -/
theorem c5_merge_appends_only_new (prev incoming : List Message) :
    mergeMessages prev incoming
      = prev ++ (incoming.filter fun m => !((prev.map Message.id).contains m.id))
  ∧ ∀ m ∈ incoming.filter fun m => !((prev.map Message.id).contains m.id),
      ∀ p ∈ prev, p.id ≠ m.id := by
  constructor
  · by_cases h : (incoming.filter fun m => !((prev.map Message.id).contains m.id)).length > 0
    · simp [mergeMessages, if_pos h]
    · have h0 : (incoming.filter fun m => !((prev.map Message.id).contains m.id)) = [] := by
        simpa using Nat.le_zero.mp (Nat.not_lt.mp h)
      simp [mergeMessages, h0]
  · intro m hm p hp hEq
    have h2 := (List.mem_filter.mp hm).2
    have h3 : m.id ∈ prev.map Message.id := hEq ▸ List.mem_map_of_mem Message.id hp
    simp at h2
    exact h2 p hp hEq

end SporeBox

namespace SporeBox

/-- Witness for C5 on a concrete overlap: the duplicate incoming id is
dropped and the fresh one is appended. -/
theorem c5_merge_appends_only_new_witness :
    mergeMessages [{ id := "a", content := "x", sender := "s", timestamp := "t", type := MessageType.text }]
        [{ id := "a", content := "x2", sender := "s", timestamp := "t2", type := MessageType.text },
         { id := "b", content := "y", sender := "s", timestamp := "t2", type := MessageType.text }]
      = [{ id := "a", content := "x", sender := "s", timestamp := "t", type := MessageType.text }]
        ++ ([{ id := "a", content := "x2", sender := "s", timestamp := "t2", type := MessageType.text },
             { id := "b", content := "y", sender := "s", timestamp := "t2", type := MessageType.text }].filter
              fun m => !(([{ id := "a", content := "x", sender := "s", timestamp := "t", type := MessageType.text }].map Message.id).contains m.id))
  ∧ ({ id := "a", content := "x", sender := "s", timestamp := "t", type := MessageType.text } : Message).id
      ≠ ({ id := "b", content := "y", sender := "s", timestamp := "t2", type := MessageType.text } : Message).id := by
  refine ⟨(c5_merge_appends_only_new _ _).1, ?_⟩
  exact (c5_merge_appends_only_new
    [{ id := "a", content := "x", sender := "s", timestamp := "t", type := MessageType.text }]
    [{ id := "a", content := "x2", sender := "s", timestamp := "t2", type := MessageType.text },
     { id := "b", content := "y", sender := "s", timestamp := "t2", type := MessageType.text }]).2
    { id := "b", content := "y", sender := "s", timestamp := "t2", type := MessageType.text } (by decide)
    { id := "a", content := "x", sender := "s", timestamp := "t", type := MessageType.text } (by decide)

/-- C3: `documentHidden` deactivates the client, cancels any pending timer
and issues no poll; while the client is inactive, timer firings, poll
completions and further hidden events never issue a new poll request; a
`documentVisible` event on an inactive client re-activates it, resets the
interval to 3000 ms and immediately issues a poll. -/
theorem c3_visibility_suspend_resume (s : ClientState) (o : PollOutcome) :
    ((step s Event.documentHidden).isActive = false
      ∧ (step s Event.documentHidden).timerSet = false
      ∧ (step s Event.documentHidden).inFlight = s.inFlight)
  ∧ (s.isActive = false →
      (step s Event.timerFire).inFlight ≤ s.inFlight
      ∧ (step s (Event.pollComplete o)).inFlight ≤ s.inFlight
      ∧ (step s Event.documentHidden).inFlight ≤ s.inFlight
      ∧ (step s Event.timerFire).timerSet = false
      ∧ (step s (Event.pollComplete o)).timerSet = s.timerSet)
  ∧ (s.isActive = false →
      (step s Event.documentVisible).isActive = true
      ∧ (step s Event.documentVisible).currentPollInterval = 3000
      ∧ (step s Event.documentVisible).inFlight = s.inFlight + 1) := by
  refine ⟨⟨rfl, rfl, rfl⟩, fun h => ?_, fun h => ?_⟩
  · have hts : ∀ o, (applyOutcome s o).timerSet = s.timerSet := fun o => by
      cases o <;> rfl
    refine ⟨?_, ?_, le_refl _, ?_, ?_⟩
    · simp only [step, h]; split_ifs <;> simp_all
    · simp only [step, h]; split_ifs <;> simp_all [Nat.sub_le]
    · simp only [step, h]; split_ifs <;> simp_all [Bool.not_eq_true]
    · simp only [step, h]; split_ifs <;> simp_all [hts]
  · simp [step, h, initialInterval]

/-- Witness for C3 at a concrete inactive state. -/
theorem c3_visibility_suspend_resume_witness :
    (step (step (initState "t0") Event.documentHidden) Event.documentVisible).currentPollInterval = 3000
  ∧ (step (step (initState "t0") Event.documentHidden) Event.documentVisible).isActive = true
  ∧ (step (step (initState "t0") Event.documentHidden) (Event.pollComplete PollOutcome.failure)).inFlight
      ≤ (step (initState "t0") Event.documentHidden).inFlight := by
  have h := c3_visibility_suspend_resume (step (initState "t0") Event.documentHidden) PollOutcome.failure
  exact ⟨(h.2.2 rfl).2.1, (h.2.2 rfl).1, (h.2.1 rfl).2.1⟩

end SporeBox

namespace SporeBox

/-- Auxiliary bound: multiplying a quantity of at least 3000 by a factor of
at least 1 and capping at 30000 lands in the band [3000, 30000]. -/
theorem cappedGrowthBounds (i k : ℚ) (hk : 1 ≤ k) (h : 3000 ≤ i) :
    3000 ≤ min (i * k) 30000 ∧ min (i * k) 30000 ≤ 30000 := by
  refine ⟨le_min ?_ (by norm_num), min_le_right _ _⟩
  have h2 : i * 1 ≤ i * k := mul_le_mul_of_nonneg_left hk (by linarith)
  rw [mul_one] at h2
  linarith

/-- Every poll outcome keeps the interval within [3000, 30000]. -/
theorem applyOutcomeIntervalBounds (s : ClientState) (o : PollOutcome)
    (h : 3000 ≤ s.currentPollInterval ∧ s.currentPollInterval ≤ 30000) :
    3000 ≤ (applyOutcome s o).currentPollInterval
      ∧ (applyOutcome s o).currentPollInterval ≤ 30000 := by
  cases o with
  | success resp =>
    by_cases hm : resp.messages.length > 0
    · simp [applyOutcome, hm, initialInterval]
      norm_num
    · simp only [applyOutcome, if_neg hm, idleMultiplier, maxInterval]
      exact cappedGrowthBounds _ _ (by norm_num) h.1
  | failure =>
    simp only [applyOutcome, errorMultiplier, maxInterval]
    exact cappedGrowthBounds _ _ (by norm_num) h.1

/-- C4: in every reachable state of the polling loop, after any sequence of
successful, empty and failed polls and visibility changes, the interval
satisfies 3000 ms ≤ interval ≤ 30000 ms. -/
theorem c4_interval_invariant (s : ClientState) (h : Reachable s) :
    3000 ≤ s.currentPollInterval ∧ s.currentPollInterval ≤ 30000 := by
  induction h with
  | init c =>
    simp [initState, initialInterval]
    norm_num
  | next s e hr ih =>
    cases e with
    | timerFire =>
      have hEq : (step s Event.timerFire).currentPollInterval = s.currentPollInterval := by
        simp only [step]; split_ifs <;> rfl
      rw [hEq]; exact ih
    | pollComplete o =>
      by_cases hf : s.inFlight > 0
      · have hEq : (step s (Event.pollComplete o)).currentPollInterval
            = (applyOutcome s o).currentPollInterval := by
          simp only [step, if_pos hf]; split_ifs <;> rfl
        rw [hEq]
        exact applyOutcomeIntervalBounds s o ih
      · have hEq : step s (Event.pollComplete o) = s := by simp [step, hf]
        rw [hEq]; exact ih
    | documentHidden => exact ih
    | documentVisible =>
      by_cases ha : s.isActive
      · have hEq : step s Event.documentVisible = s := by simp [step, ha]
        rw [hEq]; exact ih
      · have hEq : (step s Event.documentVisible).currentPollInterval = initialInterval := by
          simp [step, ha]
        rw [hEq]
        simp [initialInterval]
        norm_num

/-- Witness for C4 at the mount state. -/
theorem c4_interval_invariant_witness :
    3000 ≤ (initState "t0").currentPollInterval
      ∧ (initState "t0").currentPollInterval ≤ 30000 :=
  c4_interval_invariant (initState "t0") (Reachable.init "t0")

end SporeBox

namespace SporeBox

/-- C6: `handleSendMessage` posts `{content, sender, type}` to
`/api/messages` exactly for text messages; for a non-text type with a file
it posts a multipart form with exactly the fields `file` and `sender` to
`/api/upload`; with neither a text type nor a file it sends nothing. -/
theorem c6_send_routing (d c : String) (ty : MessageType) (f : Option File) :
    (ty = MessageType.text →
      handleSendMessage d c ty f
        = some (ApiRequest.postMessages { content := c, sender := d, type := MessageType.text }))
  ∧ (ty ≠ MessageType.text → ∀ fl, f = some fl →
      handleSendMessage d c ty f
        = some (ApiRequest.postUpload
            [("file", FormValue.fileVal fl), ("sender", FormValue.strVal d)]))
  ∧ (ty ≠ MessageType.text → f = none → handleSendMessage d c ty f = none)
  ∧ (∀ b, handleSendMessage d c ty f = some (ApiRequest.postMessages b) →
      ty = MessageType.text ∧ b = { content := c, sender := d, type := MessageType.text }) := by
  refine ⟨fun h => ?_, fun h fl hf => ?_, fun h hf => ?_, fun b hb => ?_⟩
  · subst h; rfl
  · cases ty <;> simp_all [handleSendMessage, uploadFileRequest]
  · cases ty <;> simp_all [handleSendMessage]
  · cases ty with
    | text =>
      refine ⟨rfl, ?_⟩
      simp only [handleSendMessage, sendMessageRequest, Option.some.injEq] at hb
      exact (ApiRequest.postMessages.injEq _ _).mp hb.symm ▸ rfl
    | image => cases f <;> simp_all [handleSendMessage, uploadFileRequest]
    | file => cases f <;> simp_all [handleSendMessage, uploadFileRequest]

/-- Witness for C6: a text send, a file upload, and a file-less non-text
call on concrete inputs. -/
theorem c6_send_routing_witness :
    handleSendMessage "dev" "hello" MessageType.text none
      = some (ApiRequest.postMessages { content := "hello", sender := "dev", type := MessageType.text })
  ∧ handleSendMessage "dev" "" MessageType.image (some { handle := 3 })
      = some (ApiRequest.postUpload
          [("file", FormValue.fileVal { handle := 3 }), ("sender", FormValue.strVal "dev")])
  ∧ handleSendMessage "dev" "" MessageType.file none = none := by
  refine ⟨(c6_send_routing "dev" "hello" MessageType.text none).1 rfl, ?_, ?_⟩
  · exact (c6_send_routing "dev" "" MessageType.image (some { handle := 3 })).2.1
      (by decide) { handle := 3 } rfl
  · exact (c6_send_routing "dev" "" MessageType.file none).2.2.1 (by decide) rfl

/-- C8: `getDeviceName` returns the `device` query parameter when it is
present and non-empty and `Browser` otherwise, and every request emitted by
`handleSendMessage` carries that value as its sender. -/
theorem c8_device_name (params : List (String × String)) :
    (∀ v, params.lookup "device" = some v → v ≠ "" → getDeviceName params = v)
  ∧ (params.lookup "device" = none → getDeviceName params = "Browser")
  ∧ (params.lookup "device" = some "" → getDeviceName params = "Browser")
  ∧ (∀ content ty f r, handleSendMessage (getDeviceName params) content ty f = some r →
      requestSender r = some (getDeviceName params)) := by
  refine ⟨fun v hv hne => ?_, fun h => ?_, fun h => ?_, fun content ty f r hr => ?_⟩
  · simp [getDeviceName, hv, hne]
  · simp [getDeviceName, h]
  · simp [getDeviceName, h]
  · cases ty <;> cases f <;>
      simp_all [handleSendMessage, sendMessageRequest, uploadFileRequest] <;>
      subst hr <;> rfl

/-- Witness for C8 on a concrete query string and send. -/
theorem c8_device_name_witness :
    getDeviceName [("x", "y"), ("device", "iPhone")] = "iPhone"
  ∧ getDeviceName [("device", "")] = "Browser"
  ∧ requestSender (ApiRequest.postMessages
      { content := "hi", sender := getDeviceName [("device", "iPhone")], type := MessageType.text })
      = some (getDeviceName [("device", "iPhone")]) := by
  refine ⟨(c8_device_name [("x", "y"), ("device", "iPhone")]).1 "iPhone" (by decide) (by decide),
    (c8_device_name [("device", "")]).2.2.1 (by decide), ?_⟩
  exact (c8_device_name [("device", "iPhone")]).2.2.2 "hi" MessageType.text none
    (ApiRequest.postMessages
      { content := "hi", sender := getDeviceName [("device", "iPhone")], type := MessageType.text })
    rfl

end SporeBox

namespace SporeBox

/-- The head of a non-empty `dropWhile` result fails the predicate. -/
theorem dropWhileHeadNot (p : Char → Bool) (l : List Char)
    (h : l.dropWhile p ≠ []) :
    ∃ x xs, l.dropWhile p = x :: xs ∧ p x = false := by
  induction l with
  | nil => simp at h
  | cons a t ih =>
    rw [List.dropWhile_cons] at h ⊢
    by_cases hp : p a
    · simp only [hp, if_true] at h ⊢
      exact ih h
    · simp only [hp, if_false]
      exact ⟨a, t, rfl, Bool.not_eq_true _ ▸ hp⟩

/-- A non-empty trimmed string contains a non-whitespace character. -/
theorem trimCharsHasNonWhitespace (l : List Char) (h : trimChars l ≠ []) :
    ∃ ch ∈ trimChars l, ch.isWhitespace = false := by
  have h2 : ((l.dropWhile Char.isWhitespace).reverse.dropWhile Char.isWhitespace) ≠ [] := by
    intro hz
    exact h (by simp [trimChars, hz])
  obtain ⟨x, xs, hx, hpx⟩ := dropWhileHeadNot Char.isWhitespace _ h2
  refine ⟨x, ?_, hpx⟩
  have hmem : x ∈ (l.dropWhile Char.isWhitespace).reverse.dropWhile Char.isWhitespace := by
    rw [hx]; exact List.mem_cons_self x xs
  simpa [trimChars] using hmem

/-- C9: a text message is submitted only when the trimmed input is
non-empty and the input is not disabled; the content sent is the trimmed
string, which is neither empty nor whitespace-only. -/
theorem c9_text_submit (message : String) (disabled : Bool) (c : String)
    (ty : MessageType) (h : handleSubmit message disabled = some (c, ty)) :
    disabled = false ∧ ty = MessageType.text ∧ c = jsTrim message ∧ c ≠ ""
      ∧ ∃ ch ∈ c.data, ch.isWhitespace = false := by
  by_cases hcond : (jsTrim message).isEmpty = false ∧ disabled = false
  · rw [handleSubmit, if_pos hcond, Option.some.injEq] at h
    obtain ⟨hc, hty⟩ := Prod.mk.injEq _ _ _ _ ▸ h
    refine ⟨hcond.2, hty.symm, hc.symm, ?_, ?_⟩
    · rw [← hc]
      intro hz
      rw [hz] at hcond
      exact absurd hcond.1 (by decide)
    · rw [← hc]
      have hd : trimChars message.data ≠ [] := by
        intro hz
        have : (jsTrim message).isEmpty = true := by simp [jsTrim, hz, String.isEmpty]
        rw [hcond.1] at this
        exact Bool.false_ne_true this
      simpa [jsTrim] using trimCharsHasNonWhitespace message.data hd
  · rw [handleSubmit, if_neg hcond] at h
    exact absurd h (Option.noConfusion)

/-- Witness for C9 at a concrete padded input. -/
theorem c9_text_submit_witness :
    false = false ∧ MessageType.text = MessageType.text ∧ "hi" = jsTrim " hi "
      ∧ "hi" ≠ "" ∧ ∃ ch ∈ "hi".data, ch.isWhitespace = false :=
  c9_text_submit " hi " false "hi" MessageType.text (by decide)

/-- C10: a paste triggers at most one send; it is exactly the first
clipboard item whose type contains `image` and whose `getAsFile` yields a
file, sent as an image message with empty content; everything else on the
clipboard is ignored. -/
theorem c10_paste_first_image (items : List ClipboardItem) :
    handlePaste items
      = (items.find? fun it => typeContainsImage it.type && it.file.isSome).bind
          fun it => it.file.map fun f => ("", MessageType.image, f) := by
  induction items with
  | nil => rfl
  | cons item rest ih =>
    by_cases hi : typeContainsImage item.type
    · cases hf : item.file with
      | some f =>
        have hp : (fun it => typeContainsImage it.type && it.file.isSome) item = true := by
          simp [hi, hf]
        rw [@List.find?_cons_of_pos _ (fun it => typeContainsImage it.type && it.file.isSome) item rest hp]
        simp [handlePaste, hi, hf]
      | none =>
        have hp : ¬(fun it => typeContainsImage it.type && it.file.isSome) item = true := by
          simp [hf]
        rw [@List.find?_cons_of_neg _ (fun it => typeContainsImage it.type && it.file.isSome) item rest hp]
        simpa [handlePaste, hi, hf] using ih
    · have hp : ¬(fun it => typeContainsImage it.type && it.file.isSome) item = true := by
        simp [hi]
      rw [@List.find?_cons_of_neg _ (fun it => typeContainsImage it.type && it.file.isSome) item rest hp]
      simpa [handlePaste, hi] using ih

end SporeBox

namespace SporeBox

/-- Splitting at the first occurrence of `c` recovers the two sides when
the left side avoids `c`. -/
theorem splitAtFirstAppend (c : Char) :
    ∀ (l1 l2 : List Char), c ∉ l1 → splitAtFirst c (l1 ++ c :: l2) = some (l1, l2) := by
  intro l1
  induction l1 with
  | nil =>
    intro l2 h
    simp [splitAtFirst]
  | cons x xs ih =>
    intro l2 h
    have hx : ¬x = c := fun hh => h (hh ▸ List.mem_cons_self x xs)
    simp only [List.cons_append, splitAtFirst, if_neg hx, List.append_eq,
      ih l2 (fun hm => h (List.mem_cons_of_mem x hm))]
    rfl

/-- C7: for every cursor, the poll request URL is
`/api/messages/poll?since=` followed by the URI-encoded cursor, and parsing
that URL back yields the path `/api/messages/poll` and the single query
parameter `since` bound to the encoded cursor. -/
theorem c7_poll_request (since : String) :
    pollMessagesURL since = "/api/messages/poll?since=" ++ encodeURIComponent since
  ∧ parseQueryURL (pollMessagesURL since)
      = some ("/api/messages/poll", "since", encodeURIComponent since) := by
  refine ⟨rfl, ?_⟩
  have hdata : (pollMessagesURL since).data
      = "/api/messages/poll".data
          ++ '?' :: ("since".data ++ '=' :: (encodeURIComponent since).data) := by
    show ("/api/messages/poll?since=" ++ encodeURIComponent since).data = _
    rw [String.data_append]
    have hlit : "/api/messages/poll?since=".data
        = "/api/messages/poll".data ++ '?' :: ("since".data ++ ['=']) := by decide
    rw [hlit]
    simp [List.append_assoc]
  simp only [parseQueryURL, hdata,
    splitAtFirstAppend '?' "/api/messages/poll".data _ (by decide),
    splitAtFirstAppend '=' "since".data _ (by decide)]

end SporeBox
